import Mathlib

/-!
Verification of the VAI gateway's provider-adapter translation layer.

This file shallowly embeds, in Lean, the Gemini provider adapter (request
building, message/content/tool translation, tool-name resolution), the
OpenAI Responses provider adapter (tool and tool-choice translation) and the
proxy's model-string handling, and proves properties of those definitions.

Modelling conventions: Go `map[string]any` values decoded from JSON are
modelled as `JSONValue` trees over association lists (Go maps have unique
keys; lookup and delete are the association-list operations); JSON numbers
are modelled as integers, since no verified property depends on
floating-point semantics; `json.Marshal` into a `json.RawMessage` is
modelled as the identity on the JSON value domain.
-/

namespace VAI

/-- JSON-typed values: the model of Go `any` values decoded from JSON
(`map[string]any`, `[]any`, `string`, `bool`, numbers, `nil`). -/
inductive JSONValue where
  | null
  | bool (b : Bool)
  | num (n : Int)
  | str (s : String)
  | arr (elems : List JSONValue)
  | obj (fields : List (String × JSONValue))

/-- Lookup in a Go map modelled as an association list (`m[key]`). -/
def lookupKey (key : String) : List (String × JSONValue) → Option JSONValue
  | [] => none
  | (k, v) :: rest => if k = key then some v else lookupKey key rest

/-- Deletion from a Go map modelled as an association list (`delete(m, key)`). -/
def eraseKey (key : String) (m : List (String × JSONValue)) : List (String × JSONValue) :=
  m.filter (fun p => p.1 ≠ key)

/-- Go `json.Marshal` producing a `json.RawMessage`, modelled as the identity
on the JSON value domain; `json.Marshal` of a `nil` value yields JSON `null`. -/
def jsonMarshal : Option JSONValue → JSONValue
  | none => JSONValue.null
  | some v => v

/-- Source of a media content block (`pkg/core/types`, as used by the
adapters): either inline base64 `data` or a `url`, with a media type. -/
structure Source where
  «type» : String := ""
  mediaType : String := ""
  data : String := ""
  url : String := ""

/-- Canonical content blocks (`pkg/core/types.ContentBlock` and its
variants, as used by the adapters and described in the data model). -/
inductive ContentBlock where
  | text (text : String)
  | image (source : Source)
  | audio (source : Source)
  | video (source : Source)
  | document (source : Source)
  | toolUse (id : String) (name : String) (input : List (String × JSONValue))
  | toolResult (toolUseID : String) (content : List ContentBlock)

/-- Canonical message: a role and an ordered sequence of content blocks. -/
structure Message where
  role : String
  content : List ContentBlock

/-- `Message.ContentBlocks()`: the message's content as a block list. -/
def Message.ContentBlocks (m : Message) : List ContentBlock := m.content

/-- Typed tool configuration (`tool.Config`, a Go `any` inspected by type
assertion in the adapters). -/
inductive ToolConfig where
  | none
  | webSearch (blockedDomains : List String)
  | codeExecution
  | computerUse (displayWidth : Int) (displayHeight : Int)
  | obj (fields : List (String × JSONValue))

/-- Canonical tool (`pkg/core/types.Tool`): a type tag plus the fields the
adapters read. -/
structure Tool where
  «type» : String
  name : String := ""
  description : String := ""
  inputSchema : Option JSONValue := Option.none
  config : ToolConfig := ToolConfig.none

def ToolTypeFunction : String := "function"
def ToolTypeWebSearch : String := "web_search"
def ToolTypeCodeExecution : String := "code_execution"
def ToolTypeFileSearch : String := "file_search"
def ToolTypeComputerUse : String := "computer_use"
def ToolTypeTextEditor : String := "text_editor"

/-- Canonical tool choice: a type tag (`auto`, `none`, `any`, `tool`) and,
for `tool`, the forced tool's name. -/
structure ToolChoice where
  «type» : String
  name : String := ""

/-- Requested output format (read by `buildGenerationConfig`). -/
structure OutputFormat where
  «type» : String
  jsonSchema : Option JSONValue := Option.none

/-- The `system` field, a Go `any` that is either a string or a content
block list. -/
inductive SystemValue where
  | str (s : String)
  | blocks (blocks : List ContentBlock)

/-- Canonical message request (`pkg/core/types.MessageRequest`), with the
fields the Gemini adapter reads. -/
structure MessageRequest where
  model : String := ""
  messages : List Message := []
  system : Option SystemValue := Option.none
  tools : List Tool := []
  toolChoice : Option ToolChoice := Option.none
  temperature : Option Int := Option.none
  topP : Option Int := Option.none
  topK : Option Int := Option.none
  maxTokens : Int := 0
  stopSequences : List String := []
  outputFormat : Option OutputFormat := Option.none
  extensions : List (String × JSONValue) := []

/-! ### Gemini wire format -/

/-- `geminiBlob`: inline binary data. -/
structure geminiBlob where
  mimeType : String
  data : String

/-- `geminiFileData`: a file reference. -/
structure geminiFileData where
  mimeType : String := ""
  fileURI : String

/-- `geminiFunctionCall`: function call from the model. -/
structure geminiFunctionCall where
  name : String
  args : List (String × JSONValue) := []

/-- `geminiFunctionResponse`: a function response. -/
structure geminiFunctionResponse where
  name : String
  response : List (String × JSONValue)

/-- `geminiFunctionDecl`: a function declaration. -/
structure geminiFunctionDecl where
  name : String
  description : String := ""
  parameters : JSONValue := JSONValue.null

/-- `geminiGoogleSearch`: Google Search grounding configuration. -/
structure geminiGoogleSearch where
  excludeDomains : List String := []

/-- `geminiCodeExecution`: code execution configuration (no fields). -/
structure geminiCodeExecution where

/-- `geminiTool`: a tool definition. -/
structure geminiTool where
  functionDeclarations : List geminiFunctionDecl := []
  googleSearch : Option geminiGoogleSearch := Option.none
  codeExecution : Option geminiCodeExecution := Option.none

/-- `geminiFunctionCallingConfig`: function calling behavior. -/
structure geminiFunctionCallingConfig where
  mode : String := ""
  allowedFunctionNames : List String := []

/-- `geminiToolConfig`: tool behavior configuration. -/
structure geminiToolConfig where
  functionCallingConfig : Option geminiFunctionCallingConfig := Option.none

/-- `geminiThinkingConfig`: thinking/reasoning behavior. -/
structure geminiThinkingConfig where
  thinkingBudget : Option Int := Option.none
  thinkingLevel : String := ""
  includeThoughts : Bool := false

/-- `geminiGenConfig`: generation configuration. -/
structure geminiGenConfig where
  temperature : Option Int := Option.none
  topP : Option Int := Option.none
  topK : Option Int := Option.none
  maxOutputTokens : Option Int := Option.none
  stopSequences : List String := []
  responseMIMEType : String := ""
  responseSchema : Option JSONValue := Option.none
  thinkingConfig : Option geminiThinkingConfig := Option.none

/-- `geminiPart`: a single part within content. -/
structure geminiPart where
  text : String := ""
  inlineData : Option geminiBlob := Option.none
  fileData : Option geminiFileData := Option.none
  functionCall : Option geminiFunctionCall := Option.none
  functionResponse : Option geminiFunctionResponse := Option.none
  thoughtSignature : String := ""

/-- `geminiContent`: a content object in Gemini format. -/
structure geminiContent where
  role : String := ""
  parts : List geminiPart

/-- `geminiRequest`: the Gemini API request format. -/
structure geminiRequest where
  contents : List geminiContent := []
  systemInstruction : Option geminiContent := Option.none
  tools : List geminiTool := []
  toolConfig : Option geminiToolConfig := Option.none
  generationConfig : Option geminiGenConfig := Option.none

/-! ### Gemini adapter (`pkg/core/providers/gemini`) -/

namespace gemini

/-- `translateSystemInstruction`: converts the system prompt to Gemini
format; only text blocks of a block-list system prompt are kept. -/
def translateSystemInstruction (system : SystemValue) : geminiContent :=
  match system with
  | SystemValue.str s => { parts := [{ text := s }] }
  | SystemValue.blocks bs =>
      { parts := bs.filterMap (fun block =>
          match block with
          | ContentBlock.text t => some ({ text := t } : geminiPart)
          | _ => Option.none) }

/-- `translateContentBlocks`: converts canonical content blocks to Gemini
parts; tool results are skipped here (handled in `translateMessages`), and
a tool-use input's reserved `__thought_signature` entry is extracted into
the part's dedicated wire field and deleted from the outbound args. -/
def translateContentBlocks : List ContentBlock → List geminiPart
  | [] => []
  | block :: rest =>
    (match block with
     | ContentBlock.text t => [({ text := t } : geminiPart)]
     | ContentBlock.image src =>
        if src.«type» = "url" then
          -- both gs:// URIs and HTTP URLs are passed as file_data
          [({ fileData := some { mimeType := src.mediaType, fileURI := src.url } } : geminiPart)]
        else
          [({ inlineData := some { mimeType := src.mediaType, data := src.data } } : geminiPart)]
     | ContentBlock.audio src =>
        [({ inlineData := some { mimeType := src.mediaType, data := src.data } } : geminiPart)]
     | ContentBlock.video src =>
        if src.«type» = "url" ∨ src.data.startsWith "gs://" then
          [({ fileData := some { mimeType := src.mediaType, fileURI := src.data } } : geminiPart)]
        else
          [({ inlineData := some { mimeType := src.mediaType, data := src.data } } : geminiPart)]
     | ContentBlock.document src =>
        [({ inlineData := some { mimeType := src.mediaType, data := src.data } } : geminiPart)]
     | ContentBlock.toolUse _ name input =>
        (match lookupKey "__thought_signature" input with
         | some (JSONValue.str sig) =>
            [({ functionCall := some { name := name, args := eraseKey "__thought_signature" input },
                thoughtSignature := sig } : geminiPart)]
         | _ =>
            [({ functionCall := some { name := name, args := input } } : geminiPart)])
     | ContentBlock.toolResult _ _ => [])
    ++ translateContentBlocks rest

/-- Inner loop of `getToolNameFromID`: first tool-use block in a block list
whose id matches, scanning blocks in order. -/
def findToolUseInBlocks (toolUseID : String) : List ContentBlock → Option String
  | [] => Option.none
  | ContentBlock.toolUse id name _ :: rest =>
      if id = toolUseID then some name else findToolUseInBlocks toolUseID rest
  | _ :: rest => findToolUseInBlocks toolUseID rest

/-- Outer loop of `getToolNameFromID` over the reversed message list
(the Go loop runs indices from `len-1` down to `0`); non-assistant
messages are skipped. -/
def getToolNameFromIDAux (toolUseID : String) : List Message → String
  | [] => toolUseID
  | msg :: rest =>
      if msg.role ≠ "assistant" then getToolNameFromIDAux toolUseID rest
      else
        match findToolUseInBlocks toolUseID msg.ContentBlocks with
        | some name => name
        | Option.none => getToolNameFromIDAux toolUseID rest

/-- `getToolNameFromID`: looks up the tool name for a tool-use id by
searching backwards through the messages; falls back to the id itself. -/
def getToolNameFromID (toolUseID : String) (messages : List Message) : String :=
  getToolNameFromIDAux toolUseID messages.reverse

/-- The `strings.Builder` loop of `toolResultToMap`: concatenates the text
of every text block, left to right. -/
def concatTextLoop : List ContentBlock → String → String
  | [], acc => acc
  | ContentBlock.text t :: rest, acc => concatTextLoop rest (acc ++ t)
  | _ :: rest, acc => concatTextLoop rest acc

/-- `toolResultToMap`: converts tool result content to a map holding the
concatenated text under `"result"` when that text is non-empty. -/
def toolResultToMap (content : List ContentBlock) : List (String × JSONValue) :=
  let text := concatTextLoop content ""
  if text.length > 0 then [("result", JSONValue.str text)] else []

/-- Loop body of `translateMessages`; `all` is the full message list passed
to `getToolNameFromID` for name resolution. -/
def translateMessagesAux (all : List Message) : List Message → List geminiContent
  | [] => []
  | msg :: rest =>
    (if msg.ContentBlocks.any (fun block =>
          match block with
          | ContentBlock.toolResult _ _ => true
          | _ => false) then
        -- one separate role="function" content per tool result block
        msg.ContentBlocks.filterMap (fun block =>
          match block with
          | ContentBlock.toolResult tid c =>
              some ({ role := "function",
                      parts := [{ functionResponse := some { name := getToolNameFromID tid all,
                                                             response := toolResultToMap c } }] } : geminiContent)
          | _ => Option.none)
      else
        [({ role := if msg.role = "assistant" then "model" else msg.role,
            parts := translateContentBlocks msg.ContentBlocks } : geminiContent)])
    ++ translateMessagesAux all rest

/-- `translateMessages`: converts canonical messages to Gemini contents. -/
def translateMessages (messages : List Message) : List geminiContent :=
  translateMessagesAux messages messages

/-- Loop of `translateTools`: function tools accumulate into `funcDecls`,
supported native tools append to `result`, unsupported variants
(file search, computer use, text editor) are skipped; after the loop the
function declarations are appended as one tool if any were collected. -/
def translateToolsLoop : List Tool → List geminiFunctionDecl → List geminiTool → List geminiTool
  | [], funcDecls, result =>
      if funcDecls.isEmpty then result
      else result ++ [{ functionDeclarations := funcDecls }]
  | tool :: rest, funcDecls, result =>
      if tool.«type» = ToolTypeFunction then
        translateToolsLoop rest
          (funcDecls ++ [{ name := tool.name, description := tool.description,
                           parameters := jsonMarshal tool.inputSchema }])
          result
      else if tool.«type» = ToolTypeWebSearch then
        translateToolsLoop rest funcDecls
          (result ++ [{ googleSearch := some (match tool.config with
                                              | ToolConfig.webSearch blockedDomains =>
                                                  { excludeDomains := blockedDomains }
                                              | _ => {}) }])
      else if tool.«type» = ToolTypeCodeExecution then
        translateToolsLoop rest funcDecls (result ++ [{ codeExecution := some {} }])
      else
        translateToolsLoop rest funcDecls result

/-- `translateTools`: converts canonical tools to Gemini format. -/
def translateTools (tools : List Tool) : List geminiTool :=
  translateToolsLoop tools [] []

/-- `translateToolChoice`: converts a canonical tool choice to the Gemini
function-calling configuration. -/
def translateToolChoice (tc : ToolChoice) : geminiToolConfig :=
  { functionCallingConfig := some
      (if tc.«type» = "auto" then { mode := "AUTO" }
       else if tc.«type» = "none" then { mode := "NONE" }
       else if tc.«type» = "any" then { mode := "ANY" }
       else if tc.«type» = "tool" then { mode := "ANY", allowedFunctionNames := [tc.name] }
       else {}) }

/-- `buildGenerationConfig`: creates the generation config from the
request; the thinking configuration is read from the `"gemini"` extension's
`"thinking"` entry. -/
def buildGenerationConfig (req : MessageRequest) : geminiGenConfig :=
  let config : geminiGenConfig :=
    { temperature := req.temperature, topP := req.topP, topK := req.topK }
  let config := if req.maxTokens > 0 then { config with maxOutputTokens := some req.maxTokens } else config
  let config := if req.stopSequences.length > 0 then { config with stopSequences := req.stopSequences } else config
  let config :=
    match req.outputFormat with
    | some of =>
        if of.«type» = "json_schema" then
          let config := { config with responseMIMEType := "application/json" }
          match of.jsonSchema with
          | some schema => { config with responseSchema := some (jsonMarshal (some schema)) }
          | Option.none => config
        else config
    | Option.none => config
  let config :=
    match lookupKey "gemini" req.extensions with
    | some (JSONValue.obj ext) =>
        (match lookupKey "thinking" ext with
         | some (JSONValue.obj thinking) =>
            let tc : geminiThinkingConfig := {}
            let tc :=
              match lookupKey "level" thinking with
              | some (JSONValue.str level) => { tc with thinkingLevel := level }
              | _ => tc
            let tc :=
              match lookupKey "budget" thinking with
              | some (JSONValue.num budget) => { tc with thinkingBudget := some budget }
              | _ => tc
            let tc :=
              match lookupKey "include_thoughts" thinking with
              | some (JSONValue.bool incl) => { tc with includeThoughts := incl }
              | _ => tc
            { config with thinkingConfig := some tc }
         | _ => config)
    | _ => config
  config

/-- The max-tokens step of `buildGenerationConfig`, on an intermediate
config value. -/
def applyMaxTokens (req : MessageRequest) (config : geminiGenConfig) : geminiGenConfig :=
  if req.maxTokens > 0 then { config with maxOutputTokens := some req.maxTokens } else config

/-- The stop-sequences step of `buildGenerationConfig`. -/
def applyStopSequences (req : MessageRequest) (config : geminiGenConfig) : geminiGenConfig :=
  if req.stopSequences.length > 0 then { config with stopSequences := req.stopSequences } else config

/-- The structured-output step of `buildGenerationConfig`. -/
def applyOutputFormat (req : MessageRequest) (config : geminiGenConfig) : geminiGenConfig :=
  match req.outputFormat with
  | some of =>
      if of.«type» = "json_schema" then
        let config := { config with responseMIMEType := "application/json" }
        match of.jsonSchema with
        | some schema => { config with responseSchema := some (jsonMarshal (some schema)) }
        | Option.none => config
      else config
  | Option.none => config

/-- The extension-driven thinking step of `buildGenerationConfig`. -/
def applyThinking (req : MessageRequest) (config : geminiGenConfig) : geminiGenConfig :=
  match lookupKey "gemini" req.extensions with
  | some (JSONValue.obj ext) =>
      (match lookupKey "thinking" ext with
       | some (JSONValue.obj thinking) =>
          let tc : geminiThinkingConfig := {}
          let tc :=
            match lookupKey "level" thinking with
            | some (JSONValue.str level) => { tc with thinkingLevel := level }
            | _ => tc
          let tc :=
            match lookupKey "budget" thinking with
            | some (JSONValue.num budget) => { tc with thinkingBudget := some budget }
            | _ => tc
          let tc :=
            match lookupKey "include_thoughts" thinking with
            | some (JSONValue.bool incl) => { tc with includeThoughts := incl }
            | _ => tc
          { config with thinkingConfig := some tc }
       | _ => config)
  | _ => config

/-- `buildRequest`: converts a canonical request to a Gemini request. -/
def buildRequest (req : MessageRequest) : geminiRequest :=
  { systemInstruction := req.system.map translateSystemInstruction,
    contents := translateMessages req.messages,
    tools := if req.tools.length > 0 then translateTools req.tools else [],
    toolConfig := req.toolChoice.map translateToolChoice,
    generationConfig := some (buildGenerationConfig req) }

/-- Projection of the request data that the thinking-configuration logic of
`buildGenerationConfig` reads: present exactly when the `"gemini"`
extension is a map holding a `"thinking"` map, and then carrying that map's
`"level"` string, `"budget"` number and `"include_thoughts"` boolean. -/
def thinkingParams (req : MessageRequest) : Option (Option String × Option Int × Option Bool) :=
  match lookupKey "gemini" req.extensions with
  | some (JSONValue.obj ext) =>
      (match lookupKey "thinking" ext with
       | some (JSONValue.obj thinking) =>
          some ((lookupKey "level" thinking).bind (fun v =>
                  match v with | JSONValue.str s => some s | _ => Option.none),
                (lookupKey "budget" thinking).bind (fun v =>
                  match v with | JSONValue.num n => some n | _ => Option.none),
                (lookupKey "include_thoughts" thinking).bind (fun v =>
                  match v with | JSONValue.bool b => some b | _ => Option.none))
       | _ => Option.none)
  | _ => Option.none

/-- The thinking configuration determined by extracted thinking parameters:
absent parameters leave the zero values of the wire struct. -/
def thinkingConfigOf :
    Option (Option String × Option Int × Option Bool) → Option geminiThinkingConfig
  | Option.none => Option.none
  | some (l, b, i) =>
      some { thinkingBudget := b, thinkingLevel := l.getD "", includeThoughts := i.getD false }

/-- One function declaration per function tool, as built by the
`ToolTypeFunction` branch of `translateTools`. -/
def funcDeclOf (t : Tool) : geminiFunctionDecl :=
  { name := t.name, description := t.description, parameters := jsonMarshal t.inputSchema }

/-- The function-declaration list `translateTools` collects from a tool
list: one declaration per function tool, in input order. -/
def funcDecls (tools : List Tool) : List geminiFunctionDecl :=
  tools.filterMap (fun t =>
    if t.«type» = ToolTypeFunction then some (funcDeclOf t) else Option.none)

/-- The Gemini tool entry `translateTools` appends for one non-function
tool, if any: a Google Search entry for a web-search tool, a code-execution
entry for a code-execution tool, nothing otherwise. -/
def nonFuncEntry (t : Tool) : Option geminiTool :=
  if t.«type» = ToolTypeWebSearch then
    some ({ googleSearch := some (match t.config with
                                  | ToolConfig.webSearch blockedDomains =>
                                      { excludeDomains := blockedDomains }
                                  | _ => {}) } : geminiTool)
  else if t.«type» = ToolTypeCodeExecution then
    some ({ codeExecution := some {} } : geminiTool)
  else
    Option.none

end gemini

/-! ### OpenAI Responses adapter (`pkg/core/providers/oai_resp`) -/

/-- `containerConfig` for the code-interpreter tool. -/
structure containerConfig where
  «type» : String

/-- `responsesTool`: a tool in OpenAI Responses API format, with the fields
the adapter writes. -/
structure responsesTool where
  «type» : String
  name : String := ""
  description : String := ""
  parameters : Option JSONValue := Option.none
  searchContextSize : String := ""
  container : Option containerConfig := Option.none
  vectorStoreIDs : List String := []
  environment : String := ""
  displayWidth : Int := 0
  displayHeight : Int := 0

namespace oai_resp

/-- Per-tool body of the `translateTools` loop: the Responses tool the loop
appends for one canonical tool, or nothing when the variant is skipped
(text editor, unknown variants). -/
def toolEntry (tool : Tool) : Option responsesTool :=
  if tool.«type» = ToolTypeFunction then
    some (match tool.inputSchema with
          | some schema =>
              ({ «type» := "function", name := tool.name, description := tool.description,
                 parameters := some (jsonMarshal (some schema)) } : responsesTool)
          | Option.none =>
              ({ «type» := "function", name := tool.name,
                 description := tool.description } : responsesTool))
  else if tool.«type» = ToolTypeWebSearch then
    some (match tool.config with
          | ToolConfig.webSearch _ =>
              ({ «type» := "web_search", searchContextSize := "medium" } : responsesTool)
          | _ => ({ «type» := "web_search" } : responsesTool))
  else if tool.«type» = ToolTypeCodeExecution then
    some (match tool.config with
          | ToolConfig.codeExecution =>
              ({ «type» := "code_interpreter",
                 container := some { «type» := "auto" } } : responsesTool)
          | _ => ({ «type» := "code_interpreter" } : responsesTool))
  else if tool.«type» = ToolTypeFileSearch then
    some ({ «type» := "file_search",
            vectorStoreIDs := (match tool.config with
                               | ToolConfig.obj fields =>
                                  (match lookupKey "vector_store_ids" fields with
                                   | some (JSONValue.arr ids) =>
                                      ids.filterMap (fun v =>
                                        match v with
                                        | JSONValue.str s => some s
                                        | _ => Option.none)
                                   | _ => [])
                               | _ => []) } : responsesTool)
  else if tool.«type» = ToolTypeComputerUse then
    some (match tool.config with
          | ToolConfig.computerUse w h =>
              ({ «type» := "computer_use_preview", environment := "browser",
                 displayWidth := w, displayHeight := h } : responsesTool)
          | _ =>
              ({ «type» := "computer_use_preview", environment := "browser",
                 displayWidth := 1024, displayHeight := 768 } : responsesTool))
  else if tool.«type» = "image_generation" then
    some ({ «type» := "image_generation" } : responsesTool)
  else
    Option.none

/-- `translateTools`: converts canonical tools to OpenAI Responses API
format; the Go loop appends `toolEntry` of each tool in order. -/
def translateTools (tools : List Tool) : List responsesTool :=
  tools.filterMap toolEntry

/-- `translateToolChoice`: converts a canonical tool choice to the OpenAI
Responses API value (a JSON string or object; `nil` input yields `nil`). -/
def translateToolChoice (tc : Option ToolChoice) : JSONValue :=
  match tc with
  | Option.none => JSONValue.null
  | some tc =>
      if tc.«type» = "auto" then JSONValue.str "auto"
      else if tc.«type» = "none" then JSONValue.str "none"
      else if tc.«type» = "any" then JSONValue.str "required"
      else if tc.«type» = "tool" then
        JSONValue.obj [("type", JSONValue.str "function"), ("name", JSONValue.str tc.name)]
      else JSONValue.str "auto"

end oai_resp

/-! ### Proxy model-string handling (`pkg/proxy`, `pkg/core`) -/

/-- `stripProviderPrefix`: removes the provider prefix from a model string,
e.g. `"gemini/gemini-2.5-flash"` to `"gemini-2.5-flash"`; Go finds the
first `/` with `strings.Index` and slices past it, returning the string
unchanged when there is none. -/
def stripProviderPrefix (model : String) : String :=
  match model.toList.findIdx? (fun c => c = '/') with
  | some idx => String.mk (model.toList.drop (idx + 1))
  | Option.none => model

/-- Modelled from the spec: `core.ParseModelString` is not under `src/`
(only its caller `handleMessages` is).  Per §6 of the spec, the model
string `"<provider>/<model-name>"` is split on the first separator, and
provider recognition fails with an `invalid_request` error if the provider
segment is unrecognized; the recognized provider set is a parameter. -/
def ParseModelString (recognized : List String) (model : String) :
    Except String (String × String) :=
  let provider := String.mk (model.toList.takeWhile (fun c => c ≠ '/'))
  let rest := model.toList.dropWhile (fun c => c ≠ '/')
  if provider ∈ recognized then
    match rest with
    | [] => Except.ok (provider, "")
    | _ :: name => Except.ok (provider, String.mk name)
  else
    Except.error ("unknown provider: " ++ provider)

/-- Outcome of the model-string path of the proxy's `/v1/messages` handler:
either an error response was written, or the request went on to the engine
(and hence to a provider). -/
inductive HandlerResult where
  | errorResponse (status : Nat) (errType : String)
  | providerInvoked (provider : String) (model : String)

/-- The model-string path of `Server.handleMessages`: `core.ParseModelString`
failure is answered with `writeError(400, "invalid_request_error", ...)`
before `engine.CreateMessage` is ever called; on success the engine (and so
a provider) is invoked. -/
def handleMessages (recognized : List String) (reqModel : String) : HandlerResult :=
  match ParseModelString recognized reqModel with
  | Except.error _ => HandlerResult.errorResponse 400 "invalid_request_error"
  | Except.ok (provider, model) => HandlerResult.providerInvoked provider model

/-! ### Helper lemmas -/

/-- `translateContentBlocks` translates block lists pointwise. -/
theorem translateContentBlocks_append (l1 l2 : List ContentBlock) :
    gemini.translateContentBlocks (l1 ++ l2) =
      gemini.translateContentBlocks l1 ++ gemini.translateContentBlocks l2 := by
  induction l1 with
  | nil => rfl
  | cons b rest ih =>
      simp only [List.cons_append, gemini.translateContentBlocks, List.append_eq, ih,
        List.append_assoc]

/-- Deleting a key removes it from the map. -/
theorem lookupKey_eraseKey_self (k : String) (m : List (String × JSONValue)) :
    lookupKey k (eraseKey k m) = Option.none := by
  induction m with
  | nil => rfl
  | cons p rest ih =>
      by_cases h : p.1 = k
      · simpa [eraseKey, h] using ih
      · simpa [eraseKey, lookupKey, h] using ih

/-- Deleting a key leaves every other key's binding unchanged. -/
theorem lookupKey_eraseKey_ne (k k0 : String) (m : List (String × JSONValue))
    (h : k ≠ k0) : lookupKey k (eraseKey k0 m) = lookupKey k m := by
  induction m with
  | nil => rfl
  | cons p rest ih =>
      by_cases hp : p.1 = k0
      · have hk : p.1 ≠ k := fun hkk => h ((hkk.symm.trans hp) ▸ rfl)
        have he : eraseKey k0 (p :: rest) = eraseKey k0 rest := by
          simp [eraseKey, List.filter_cons, hp]
        rw [he, ih]
        simp [lookupKey, hk]
      · have he : eraseKey k0 (p :: rest) = p :: eraseKey k0 rest := by
          simp [eraseKey, List.filter_cons, hp]
        rw [he]
        by_cases hk : p.1 = k
        · simp [lookupKey, hk]
        · simp [lookupKey, hk, ih]

/-- The backward walk returns the fallback id when no assistant message
matches. -/
theorem getToolNameFromIDAux_no_match (t : String) (l : List Message)
    (h : ∀ x, x ∈ l → x.role = "assistant" →
      gemini.findToolUseInBlocks t x.content = Option.none) :
    gemini.getToolNameFromIDAux t l = t := by
  induction l with
  | nil => rfl
  | cons m rest ih =>
      have hrest : ∀ x, x ∈ rest → x.role = "assistant" →
          gemini.findToolUseInBlocks t x.content = Option.none := by
        intro x hx
        exact h x (List.mem_cons_of_mem _ hx)
      by_cases hr : m.role = "assistant"
      · have hm := h m (List.mem_cons_self _ _) hr
        simp [gemini.getToolNameFromIDAux, hr, Message.ContentBlocks, hm, ih hrest]
      · simp [gemini.getToolNameFromIDAux, hr, ih hrest]

/-- The backward walk skips over a block of messages in which no assistant
message matches. -/
theorem getToolNameFromIDAux_append (t : String) (l1 l2 : List Message)
    (h : ∀ x, x ∈ l1 → x.role = "assistant" →
      gemini.findToolUseInBlocks t x.content = Option.none) :
    gemini.getToolNameFromIDAux t (l1 ++ l2) = gemini.getToolNameFromIDAux t l2 := by
  induction l1 with
  | nil => rfl
  | cons m rest ih =>
      have hrest : ∀ x, x ∈ rest → x.role = "assistant" →
          gemini.findToolUseInBlocks t x.content = Option.none := by
        intro x hx
        exact h x (List.mem_cons_of_mem _ hx)
      by_cases hr : m.role = "assistant"
      · have hm := h m (List.mem_cons_self _ _) hr
        simp [gemini.getToolNameFromIDAux, hr, Message.ContentBlocks, hm, ih hrest]
      · simp [gemini.getToolNameFromIDAux, hr, ih hrest]

/-! ### Claims -/

/-- Claim C1, counterexample: the claim quantifies over every conversation,
but `getToolNameFromID` skips non-assistant messages, so a matching
`ToolUse` carried by a user-role message is not found and the id itself is
returned instead of the block's name. -/
theorem C1_counterexample :
    ¬ (gemini.getToolNameFromID "a"
        [{ role := "user", content := [ContentBlock.toolUse "a" "get_weather" []] }] =
      "get_weather") := by
  decide

/-- Claim C1 (amended): `getToolNameFromID` walks the conversation history
backward over the assistant messages to the nearest one containing a
`ToolUse` whose id matches, returning that block's name; if no assistant
message contains a matching `ToolUse`, the id itself is returned.  In
particular, on the spec's example conversation the translated function
response references `"get_weather"`. -/
theorem C1_toolName_backward_lookup :
  ∀ (msgs pre post : List Message) (m : Message) (t n : String),
    (msgs.all (fun x => !(x.role == "assistant") ||
        (gemini.findToolUseInBlocks t x.content).isNone) = true →
      gemini.getToolNameFromID t msgs = t)
    ∧ (post.all (fun x => !(x.role == "assistant") ||
        (gemini.findToolUseInBlocks t x.content).isNone) = true →
      m.role = "assistant" →
      gemini.findToolUseInBlocks t m.content = some n →
      gemini.getToolNameFromID t (pre ++ m :: post) = n)
    ∧ ((gemini.translateMessages
         [{ role := "user", content := [ContentBlock.text "hi"] },
          { role := "assistant", content := [ContentBlock.toolUse "a" "get_weather" []] },
          { role := "user", content := [ContentBlock.toolResult "a" [ContentBlock.text "72F"]] }]).map
        (fun c => (c.role, c.parts.filterMap (fun p => p.functionResponse.map (fun fr => fr.name)))) =
       [("user", []), ("model", []), ("function", ["get_weather"])]) := by
  intro msgs pre post m t n
  refine ⟨?_, ?_, rfl⟩
  · intro h
    refine getToolNameFromIDAux_no_match t msgs.reverse ?_
    intro x hx hr
    have hb := List.all_eq_true.mp h x (List.mem_reverse.mp hx)
    simp only [hr, beq_self_eq_true, Bool.not_true, Bool.false_or,
      Option.isNone_iff_eq_none] at hb
    exact hb
  · intro hpost hrole hfind
    have hrev : (pre ++ m :: post).reverse = post.reverse ++ m :: pre.reverse := by
      simp
    unfold gemini.getToolNameFromID
    rw [hrev]
    have hskip : ∀ x, x ∈ post.reverse → x.role = "assistant" →
        gemini.findToolUseInBlocks t x.content = Option.none := by
      intro x hx hr
      have hb := List.all_eq_true.mp hpost x (List.mem_reverse.mp hx)
      simp only [hr, beq_self_eq_true, Bool.not_true, Bool.false_or,
        Option.isNone_iff_eq_none] at hb
      exact hb
    rw [getToolNameFromIDAux_append t post.reverse (m :: pre.reverse) hskip]
    simp [gemini.getToolNameFromIDAux, hrole, Message.ContentBlocks, hfind]

/-- Claim C1, witness: the amended backward lookup applied to the spec's
example conversation. -/
theorem C1_witness :
    ([({ role := "user", content := [ContentBlock.toolResult "a" [ContentBlock.text "72F"]] } : Message)].all
        (fun x => !(x.role == "assistant") ||
          (gemini.findToolUseInBlocks "a" x.content).isNone) = true)
    ∧ ({ role := "assistant", content := [ContentBlock.toolUse "a" "get_weather" []] } : Message).role = "assistant"
    ∧ gemini.findToolUseInBlocks "a"
        ({ role := "assistant", content := [ContentBlock.toolUse "a" "get_weather" []] } : Message).content =
      some "get_weather"
    ∧ gemini.getToolNameFromID "a"
        [{ role := "user", content := [ContentBlock.text "hi"] },
         { role := "assistant", content := [ContentBlock.toolUse "a" "get_weather" []] },
         { role := "user", content := [ContentBlock.toolResult "a" [ContentBlock.text "72F"]] }] =
      "get_weather" :=
  ⟨rfl, rfl, rfl,
    (C1_toolName_backward_lookup []
      [{ role := "user", content := [ContentBlock.text "hi"] }]
      [{ role := "user", content := [ContentBlock.toolResult "a" [ContentBlock.text "72F"]] }]
      { role := "assistant", content := [ContentBlock.toolUse "a" "get_weather" []] }
      "a" "get_weather").2.1 rfl rfl rfl⟩

/-- Claim C2: both adapters preserve the four canonical tool-choice
semantics exactly: Gemini maps `auto`/`none`/`any` to the corresponding
modes and `tool{name}` to mode `ANY` with the allowed names restricted to
exactly `[name]`; OpenAI Responses maps them to `"auto"`/`"none"`/
`"required"` and `tool{name}` to `{type: "function", name: name}`. -/
theorem C2_translateToolChoice_semantics :
  ∀ n : String,
    gemini.translateToolChoice { «type» := "auto", name := n } =
      { functionCallingConfig := some { mode := "AUTO" } }
    ∧ gemini.translateToolChoice { «type» := "none", name := n } =
      { functionCallingConfig := some { mode := "NONE" } }
    ∧ gemini.translateToolChoice { «type» := "any", name := n } =
      { functionCallingConfig := some { mode := "ANY" } }
    ∧ gemini.translateToolChoice { «type» := "tool", name := n } =
      { functionCallingConfig := some { mode := "ANY", allowedFunctionNames := [n] } }
    ∧ oai_resp.translateToolChoice (some { «type» := "auto", name := n }) = JSONValue.str "auto"
    ∧ oai_resp.translateToolChoice (some { «type» := "none", name := n }) = JSONValue.str "none"
    ∧ oai_resp.translateToolChoice (some { «type» := "any", name := n }) = JSONValue.str "required"
    ∧ oai_resp.translateToolChoice (some { «type» := "tool", name := n }) =
      JSONValue.obj [("type", JSONValue.str "function"), ("name", JSONValue.str n)] :=
  fun _ => ⟨rfl, rfl, rfl, rfl, rfl, rfl, rfl, rfl⟩

/-- Claim C2, witness: the tool-choice table at the concrete name
`"get_weather"`. -/
theorem C2_witness :
    gemini.translateToolChoice { «type» := "tool", name := "get_weather" } =
      { functionCallingConfig := some { mode := "ANY", allowedFunctionNames := ["get_weather"] } }
    ∧ oai_resp.translateToolChoice (some { «type» := "tool", name := "get_weather" }) =
      JSONValue.obj [("type", JSONValue.str "function"), ("name", JSONValue.str "get_weather")] :=
  ⟨(C2_translateToolChoice_semantics "get_weather").2.2.2.1,
   (C2_translateToolChoice_semantics "get_weather").2.2.2.2.2.2.2⟩

/-- Claim C3: for a tool-use block whose input binds the reserved
`__thought_signature` key to a string, the Gemini translation emits one
function-call part carrying that string in the dedicated wire field, with
the reserved key deleted from the outbound args and every other binding
unchanged; without the reserved key the input is passed unchanged and the
wire field stays empty. -/
theorem C3_thought_signature_extraction :
  ∀ (pre post : List ContentBlock) (id name s k : String)
    (input : List (String × JSONValue)),
    (lookupKey "__thought_signature" input = some (JSONValue.str s) →
      gemini.translateContentBlocks (pre ++ ContentBlock.toolUse id name input :: post) =
        gemini.translateContentBlocks pre ++
          ({ functionCall := some { name := name, args := eraseKey "__thought_signature" input },
             thoughtSignature := s } : geminiPart) :: gemini.translateContentBlocks post
      ∧ lookupKey "__thought_signature" (eraseKey "__thought_signature" input) = Option.none
      ∧ (k ≠ "__thought_signature" →
          lookupKey k (eraseKey "__thought_signature" input) = lookupKey k input))
    ∧ (lookupKey "__thought_signature" input = Option.none →
      gemini.translateContentBlocks (pre ++ ContentBlock.toolUse id name input :: post) =
        gemini.translateContentBlocks pre ++
          ({ functionCall := some { name := name, args := input } } : geminiPart) ::
            gemini.translateContentBlocks post) := by
  intro pre post id name s k input
  have hsplit : pre ++ ContentBlock.toolUse id name input :: post =
      (pre ++ [ContentBlock.toolUse id name input]) ++ post := by
    simp
  constructor
  · intro h
    refine ⟨?_, lookupKey_eraseKey_self _ _, fun hk => lookupKey_eraseKey_ne _ _ _ hk⟩
    rw [hsplit, translateContentBlocks_append, translateContentBlocks_append]
    simp [gemini.translateContentBlocks, h]
  · intro h
    rw [hsplit, translateContentBlocks_append, translateContentBlocks_append]
    simp [gemini.translateContentBlocks, h]

/-- Claim C3, witness: extraction on a concrete two-entry input map. -/
theorem C3_witness :
    lookupKey "__thought_signature"
        [("x", JSONValue.num 1), ("__thought_signature", JSONValue.str "sig")] =
      some (JSONValue.str "sig")
    ∧ gemini.translateContentBlocks
        [ContentBlock.toolUse "t1" "f"
          [("x", JSONValue.num 1), ("__thought_signature", JSONValue.str "sig")]] =
      [{ functionCall := some { name := "f", args := [("x", JSONValue.num 1)] },
         thoughtSignature := "sig" }]
    ∧ lookupKey "__thought_signature"
        (eraseKey "__thought_signature"
          [("x", JSONValue.num 1), ("__thought_signature", JSONValue.str "sig")]) = Option.none
    ∧ ("x" : String) ≠ "__thought_signature"
    ∧ lookupKey "x"
        (eraseKey "__thought_signature"
          [("x", JSONValue.num 1), ("__thought_signature", JSONValue.str "sig")]) =
      lookupKey "x" [("x", JSONValue.num 1), ("__thought_signature", JSONValue.str "sig")] := by
  have h := (C3_thought_signature_extraction [] [] "t1" "f" "sig" "x"
    [("x", JSONValue.num 1), ("__thought_signature", JSONValue.str "sig")]).1 rfl
  exact ⟨rfl, h.1, h.2.1, by decide, h.2.2 (by decide)⟩

/-- Claim C6: the Gemini translation of an image block with a url-typed
source (gs:// or http) emits a part whose file data carries the url and
media type with no inline data, and of an inline (base64) source emits a
part whose inline data carries the data and media type with no file
data. -/
theorem C6_image_translation :
  ∀ (pre post : List ContentBlock) (mt d u : String),
    gemini.translateContentBlocks
        (pre ++ ContentBlock.image { «type» := "url", mediaType := mt, data := d, url := u } :: post) =
      gemini.translateContentBlocks pre ++
        ({ fileData := some { mimeType := mt, fileURI := u } } : geminiPart) ::
          gemini.translateContentBlocks post
    ∧ gemini.translateContentBlocks
        (pre ++ ContentBlock.image { «type» := "base64", mediaType := mt, data := d, url := u } :: post) =
      gemini.translateContentBlocks pre ++
        ({ inlineData := some { mimeType := mt, data := d } } : geminiPart) ::
          gemini.translateContentBlocks post := by
  intro pre post mt d u
  constructor
  · have hsplit : pre ++ ContentBlock.image { «type» := "url", mediaType := mt, data := d, url := u } :: post =
        (pre ++ [ContentBlock.image { «type» := "url", mediaType := mt, data := d, url := u }]) ++ post := by
      simp
    rw [hsplit, translateContentBlocks_append, translateContentBlocks_append]
    simp [gemini.translateContentBlocks]
  · have hsplit : pre ++ ContentBlock.image { «type» := "base64", mediaType := mt, data := d, url := u } :: post =
        (pre ++ [ContentBlock.image { «type» := "base64", mediaType := mt, data := d, url := u }]) ++ post := by
      simp
    rw [hsplit, translateContentBlocks_append, translateContentBlocks_append]
    simp [gemini.translateContentBlocks]

/-- Claim C6, witness: a gs:// image reference and an inline image on
concrete data. -/
theorem C6_witness :
    gemini.translateContentBlocks
        [ContentBlock.image { «type» := "url", mediaType := "image/png", data := "",
                              url := "gs://bucket/pic.png" }] =
      [{ fileData := some { mimeType := "image/png", fileURI := "gs://bucket/pic.png" } }]
    ∧ gemini.translateContentBlocks
        [ContentBlock.image { «type» := "base64", mediaType := "image/png", data := "QUJD",
                              url := "" }] =
      [{ inlineData := some { mimeType := "image/png", data := "QUJD" } }] :=
  ⟨(C6_image_translation [] [] "image/png" "" "gs://bucket/pic.png").1,
   (C6_image_translation [] [] "image/png" "QUJD" "").2⟩

/-- Folding string concatenation from an arbitrary accumulator factors the
accumulator out front. -/
theorem foldl_append_init (l : List String) :
    ∀ init, l.foldl (fun r s => r ++ s) init = init ++ l.foldl (fun r s => r ++ s) "" := by
  induction l with
  | nil => intro init; simp
  | cons s rest ih =>
      intro init
      simp only [List.foldl_cons]
      rw [ih (init ++ s), ih ("" ++ s)]
      simp [String.append_assoc]

/-- `String.join` unfolds on a cons. -/
theorem String_join_cons (s : String) (l : List String) :
    String.join (s :: l) = s ++ String.join l := by
  simp only [String.join, List.foldl_cons]
  rw [foldl_append_init l ("" ++ s)]
  simp

/-- The builder loop of `toolResultToMap` computes the joined text of the
text blocks, after the accumulator. -/
theorem concatTextLoop_eq (content : List ContentBlock) :
    ∀ acc, gemini.concatTextLoop content acc =
      acc ++ String.join (content.filterMap (fun b =>
        match b with
        | ContentBlock.text t => some t
        | _ => Option.none)) := by
  induction content with
  | nil => intro acc; simp [gemini.concatTextLoop, String.join]
  | cons b rest ih =>
      intro acc
      cases b with
      | text t =>
          simp only [gemini.concatTextLoop, List.filterMap_cons]
          rw [ih (acc ++ t), String_join_cons]
          simp [String.append_assoc]
      | image src => simpa [gemini.concatTextLoop, List.filterMap_cons] using ih acc
      | audio src => simpa [gemini.concatTextLoop, List.filterMap_cons] using ih acc
      | video src => simpa [gemini.concatTextLoop, List.filterMap_cons] using ih acc
      | document src => simpa [gemini.concatTextLoop, List.filterMap_cons] using ih acc
      | toolUse id name input => simpa [gemini.concatTextLoop, List.filterMap_cons] using ih acc
      | toolResult tid c => simpa [gemini.concatTextLoop, List.filterMap_cons] using ih acc

/-- A string is nonempty exactly when its character list is. -/
theorem String_length_pos_iff (s : String) : 0 < s.length ↔ s ≠ "" := by
  rw [show s.length = s.data.length from rfl, List.length_pos]
  constructor
  · intro h he
    exact h (by simp [he])
  · intro h hd
    exact h (by cases s; simp_all)

/-- Claim C10: `toolResultToMap` yields `{"result": s}` where `s` is the
in-order concatenation of the texts of all text blocks, whenever `s` is
non-empty, and the empty map when the concatenation is empty; non-text
blocks contribute nothing. -/
theorem C10_toolResultToMap_concat :
  ∀ (content : List ContentBlock) (s : String),
    s = String.join (content.filterMap (fun b =>
      match b with
      | ContentBlock.text t => some t
      | _ => Option.none)) →
    (s ≠ "" → gemini.toolResultToMap content = [("result", JSONValue.str s)])
    ∧ (s = "" → gemini.toolResultToMap content = []) := by
  intro content s hs
  have hloop : gemini.concatTextLoop content "" = s := by
    rw [concatTextLoop_eq content ""]
    simp [hs]
  constructor
  · intro hne
    have hpos : 0 < s.length := (String_length_pos_iff s).mpr hne
    simp only [gemini.toolResultToMap, hloop]
    rw [if_pos hpos]
  · intro he
    have hempty : gemini.concatTextLoop content "" = "" := hloop.trans he
    simp [gemini.toolResultToMap, hempty]

/-- Claim C10, witness: nonempty concatenation over a mixed block list. -/
theorem C10_witness :
    ("ab" : String) = String.join
        ([ContentBlock.text "a", ContentBlock.document {}, ContentBlock.text "b"].filterMap
          (fun b =>
            match b with
            | ContentBlock.text t => some t
            | _ => Option.none))
    ∧ ("ab" : String) ≠ ""
    ∧ gemini.toolResultToMap [ContentBlock.text "a", ContentBlock.document {}, ContentBlock.text "b"] =
        [("result", JSONValue.str "ab")] :=
  ⟨by decide, by decide,
   (C10_toolResultToMap_concat
      [ContentBlock.text "a", ContentBlock.document {}, ContentBlock.text "b"] "ab"
      (by decide)).1 (by decide)⟩

/-- Claim C7: model strings split on the first `/`:
`stripProviderPrefix` returns exactly the substring after the first
separator and leaves separator-free strings unchanged, and when the
provider segment of the request's model string is unrecognized the
`/v1/messages` handler answers with an `invalid_request` error without
invoking any provider. -/
theorem C7_model_string_parsing :
  ∀ (pre post : List Char) (s reqModel : String) (recognized : List String),
    ('/' ∉ pre → stripProviderPrefix (String.mk (pre ++ '/' :: post)) = String.mk post)
    ∧ ('/' ∉ s.toList → stripProviderPrefix s = s)
    ∧ (String.mk (reqModel.toList.takeWhile (fun c => c ≠ '/')) ∉ recognized →
        handleMessages recognized reqModel = HandlerResult.errorResponse 400 "invalid_request_error") := by
  intro pre post s reqModel recognized
  refine ⟨?_, ?_, ?_⟩
  · intro h
    have hidx : (pre ++ '/' :: post).findIdx? (fun c => c = '/') = some pre.length := by
      induction pre with
      | nil => simp [List.findIdx?_cons]
      | cons c rest ih =>
          have hc : ¬ (c = '/') := by
            intro hc
            exact h (by simp [hc])
          have hrest : '/' ∉ rest := by
            intro hr
            exact h (List.mem_cons_of_mem _ hr)
          simp [List.findIdx?_cons, hc, ih hrest]
    have hdrop : (pre ++ '/' :: post).drop (pre.length + 1) = post := by
      have : pre ++ '/' :: post = (pre ++ ['/']) ++ post := by simp
      rw [this, show pre.length + 1 = (pre ++ ['/']).length from by simp]
      exact List.drop_left _ _
    simp only [stripProviderPrefix, String.toList]
    rw [hidx]
    simp [hdrop]
  · intro h
    have hidx : s.toList.findIdx? (fun c => c = '/') = Option.none := by
      rw [List.findIdx?_eq_none_iff]
      intro x hx
      simp only [decide_eq_false_iff_not]
      intro he
      exact h (he ▸ hx)
    simp only [String.toList] at hidx
    simp [stripProviderPrefix, String.toList, hidx]
  · intro h
    simp only [String.toList, ne_eq, decide_not] at h
    simp [handleMessages, ParseModelString, h]

/-- Claim C7, witness: a concrete split and an unrecognized provider. -/
theorem C7_witness :
    ('/' ∉ (['a', 'b'] : List Char))
    ∧ stripProviderPrefix (String.mk (['a', 'b'] ++ '/' :: ['c', 'd'])) = String.mk ['c', 'd']
    ∧ ('/' ∉ ("nomodel" : String).toList)
    ∧ stripProviderPrefix "nomodel" = "nomodel"
    ∧ String.mk (("bogus/claude" : String).toList.takeWhile (fun c => c ≠ '/')) ∉ ["anthropic"]
    ∧ handleMessages ["anthropic"] "bogus/claude" =
        HandlerResult.errorResponse 400 "invalid_request_error" :=
  ⟨by decide,
   (C7_model_string_parsing ['a', 'b'] ['c', 'd'] "" "" []).1 (by decide),
   by decide,
   (C7_model_string_parsing [] [] "nomodel" "" []).2.1 (by decide),
   by decide,
   (C7_model_string_parsing [] [] "" "bogus/claude" ["anthropic"]).2.2 (by decide)⟩

/-- Characterization of the `translateTools` loop: the accumulated native
entries come first, in order, followed by one batch of all accumulated
function declarations when there are any. -/
theorem translateToolsLoop_eq :
    ∀ (tools : List Tool) (fds : List geminiFunctionDecl) (res : List geminiTool),
      gemini.translateToolsLoop tools fds res =
        res ++ tools.filterMap gemini.nonFuncEntry ++
          (if (fds ++ gemini.funcDecls tools).isEmpty then []
           else [{ functionDeclarations := fds ++ gemini.funcDecls tools }]) := by
  intro tools
  induction tools with
  | nil =>
      intro fds res
      by_cases h : fds.isEmpty
      · simp [gemini.translateToolsLoop, gemini.funcDecls, h]
      · simp [gemini.translateToolsLoop, gemini.funcDecls, h]
  | cons t rest ih =>
      intro fds res
      by_cases h1 : t.«type» = ToolTypeFunction
      · have hstep : gemini.translateToolsLoop (t :: rest) fds res =
            gemini.translateToolsLoop rest
              (fds ++ [{ name := t.name, description := t.description,
                         parameters := jsonMarshal t.inputSchema }]) res := by
          simp only [gemini.translateToolsLoop]
          rw [if_pos h1]
        have hfd : gemini.funcDecls (t :: rest) =
            { name := t.name, description := t.description,
              parameters := jsonMarshal t.inputSchema } :: gemini.funcDecls rest := by
          simp [gemini.funcDecls, gemini.funcDeclOf, List.filterMap_cons, ToolTypeFunction, h1]
        have hnf : List.filterMap gemini.nonFuncEntry (t :: rest) =
            List.filterMap gemini.nonFuncEntry rest := by
          simp [gemini.nonFuncEntry, List.filterMap_cons, ToolTypeFunction,
            ToolTypeWebSearch, ToolTypeCodeExecution, h1]
        rw [hstep, ih, hfd, hnf]
        simp [List.append_assoc]
      · by_cases h2 : t.«type» = ToolTypeWebSearch
        · have hstep : gemini.translateToolsLoop (t :: rest) fds res =
              gemini.translateToolsLoop rest fds
                (res ++ [{ googleSearch := some (match t.config with
                            | ToolConfig.webSearch blockedDomains =>
                                { excludeDomains := blockedDomains }
                            | _ => {}) }]) := by
            simp only [gemini.translateToolsLoop]
            rw [if_neg h1, if_pos h2]
          have hfd : gemini.funcDecls (t :: rest) = gemini.funcDecls rest := by
            simp [gemini.funcDecls, List.filterMap_cons, ToolTypeFunction, ToolTypeWebSearch, h2]
          have hnf : List.filterMap gemini.nonFuncEntry (t :: rest) =
              ({ googleSearch := some (match t.config with
                  | ToolConfig.webSearch blockedDomains => { excludeDomains := blockedDomains }
                  | _ => {}) } : geminiTool) :: List.filterMap gemini.nonFuncEntry rest := by
            simp [gemini.nonFuncEntry, List.filterMap_cons, ToolTypeWebSearch, h2]
          rw [hstep, ih, hfd, hnf]
          simp [List.append_assoc]
        · by_cases h3 : t.«type» = ToolTypeCodeExecution
          · have hstep : gemini.translateToolsLoop (t :: rest) fds res =
                gemini.translateToolsLoop rest fds
                  (res ++ [{ codeExecution := some {} }]) := by
              simp only [gemini.translateToolsLoop]
              rw [if_neg h1, if_neg h2, if_pos h3]
            have hfd : gemini.funcDecls (t :: rest) = gemini.funcDecls rest := by
              simp [gemini.funcDecls, List.filterMap_cons, ToolTypeFunction,
                ToolTypeCodeExecution, h3]
            have hnf : List.filterMap gemini.nonFuncEntry (t :: rest) =
                ({ codeExecution := some {} } : geminiTool) ::
                  List.filterMap gemini.nonFuncEntry rest := by
              simp [gemini.nonFuncEntry, List.filterMap_cons, ToolTypeWebSearch,
                ToolTypeCodeExecution, h2, h3]
            rw [hstep, ih, hfd, hnf]
            simp [List.append_assoc]
          · have h1x : ¬ t.«type» = "function" := h1
            have h2x : ¬ t.«type» = "web_search" := h2
            have h3x : ¬ t.«type» = "code_execution" := h3
            have hstep : gemini.translateToolsLoop (t :: rest) fds res =
                gemini.translateToolsLoop rest fds res := by
              simp only [gemini.translateToolsLoop]
              rw [if_neg h1, if_neg h2, if_neg h3]
            have hfd : gemini.funcDecls (t :: rest) = gemini.funcDecls rest := by
              simp [gemini.funcDecls, List.filterMap_cons, ToolTypeFunction, h1x]
            have hnf : List.filterMap gemini.nonFuncEntry (t :: rest) =
                List.filterMap gemini.nonFuncEntry rest := by
              simp [gemini.nonFuncEntry, List.filterMap_cons, ToolTypeWebSearch,
                ToolTypeCodeExecution, h2x, h3x]
            rw [hstep, ih, hfd, hnf]

/-- Filtering away only elements the translation drops anyway does not
change a `filterMap`. -/
theorem filterMap_filter_of_none {α β : Type} (p : α → Bool) (f : α → Option β)
    (l : List α) (h : ∀ x, p x = false → f x = Option.none) :
    (l.filter p).filterMap f = l.filterMap f := by
  induction l with
  | nil => rfl
  | cons x rest ih =>
      cases hp : p x
      · simp [List.filter_cons, hp, h x hp, List.filterMap_cons, ih]
      · simp [List.filter_cons, hp, List.filterMap_cons, ih]

/-- Native Gemini tool entries carry no function declarations. -/
theorem filter_decls_filterMap_nonFuncEntry (tools : List Tool) :
    (tools.filterMap gemini.nonFuncEntry).filter
      (fun e => !e.functionDeclarations.isEmpty) = [] := by
  induction tools with
  | nil => rfl
  | cons t rest ih =>
      by_cases h1 : t.«type» = ToolTypeWebSearch
      · simp [gemini.nonFuncEntry, h1, ToolTypeWebSearch, ToolTypeCodeExecution,
          List.filterMap_cons, List.filter_cons, ih]
      · by_cases h2 : t.«type» = ToolTypeCodeExecution
        · simp [gemini.nonFuncEntry, h1, h2, ToolTypeWebSearch, ToolTypeCodeExecution,
            List.filterMap_cons, List.filter_cons, ih]
        · have h1x : ¬ t.«type» = "web_search" := h1
          have h2x : ¬ t.«type» = "code_execution" := h2
          simp [gemini.nonFuncEntry, h1x, h2x, ToolTypeWebSearch, ToolTypeCodeExecution,
            List.filterMap_cons, ih]

/-- One Google Search entry per web-search tool. -/
theorem countP_googleSearch_filterMap (tools : List Tool) :
    (tools.filterMap gemini.nonFuncEntry).countP (fun e => e.googleSearch.isSome) =
      tools.countP (fun t => t.«type» == ToolTypeWebSearch) := by
  induction tools with
  | nil => rfl
  | cons t rest ih =>
      by_cases h1 : t.«type» = ToolTypeWebSearch
      · simp [gemini.nonFuncEntry, h1, ToolTypeWebSearch, ToolTypeCodeExecution,
          List.filterMap_cons, List.countP_cons, ih]
      · by_cases h2 : t.«type» = ToolTypeCodeExecution
        · simp [gemini.nonFuncEntry, h1, h2, ToolTypeWebSearch, ToolTypeCodeExecution,
            List.filterMap_cons, List.countP_cons, ih]
        · have h1x : ¬ t.«type» = "web_search" := h1
          have h2x : ¬ t.«type» = "code_execution" := h2
          simp [gemini.nonFuncEntry, h1, h1x, h2x, ToolTypeWebSearch, ToolTypeCodeExecution,
            List.filterMap_cons, List.countP_cons, ih]

/-- One code-execution entry per code-execution tool. -/
theorem countP_codeExecution_filterMap (tools : List Tool) :
    (tools.filterMap gemini.nonFuncEntry).countP (fun e => e.codeExecution.isSome) =
      tools.countP (fun t => t.«type» == ToolTypeCodeExecution) := by
  induction tools with
  | nil => rfl
  | cons t rest ih =>
      by_cases h1 : t.«type» = ToolTypeWebSearch
      · simp [gemini.nonFuncEntry, h1, ToolTypeWebSearch, ToolTypeCodeExecution,
          List.filterMap_cons, List.countP_cons, ih]
      · by_cases h2 : t.«type» = ToolTypeCodeExecution
        · simp [gemini.nonFuncEntry, h1, h2, ToolTypeWebSearch, ToolTypeCodeExecution,
            List.filterMap_cons, List.countP_cons, ih]
        · have h1x : ¬ t.«type» = "web_search" := h1
          have h2x : ¬ t.«type» = "code_execution" := h2
          simp [gemini.nonFuncEntry, h2, h1x, h2x, ToolTypeWebSearch, ToolTypeCodeExecution,
            List.filterMap_cons, List.countP_cons, ih]

/-- The function-declaration list is the function tools, in order, mapped
to their declarations. -/
theorem funcDecls_eq_filter_map (tools : List Tool) :
    gemini.funcDecls tools =
      (tools.filter (fun t => t.«type» == ToolTypeFunction)).map gemini.funcDeclOf := by
  induction tools with
  | nil => rfl
  | cons t rest ih =>
      by_cases h : t.«type» = ToolTypeFunction
      · simp only [gemini.funcDecls] at ih
        simp [gemini.funcDecls, List.filterMap_cons, List.filter_cons, h, ih]
      · simp only [gemini.funcDecls] at ih
        simp [gemini.funcDecls, List.filterMap_cons, List.filter_cons, h, ih]

/-- Claim C4: translating tools never fails and unsupported variants are
silently omitted: filtering out file-search, computer-use and text-editor
tools does not change the Gemini output, filtering out text-editor tools
does not change the OpenAI Responses output, and every function tool is
represented in both outputs. -/
theorem C4_unsupported_tools_omitted :
  ∀ (tools : List Tool) (t : Tool),
    gemini.translateTools (tools.filter (fun x =>
      !(x.«type» == ToolTypeFileSearch || x.«type» == ToolTypeComputerUse ||
        x.«type» == ToolTypeTextEditor))) = gemini.translateTools tools
    ∧ oai_resp.translateTools (tools.filter (fun x => !(x.«type» == ToolTypeTextEditor))) =
        oai_resp.translateTools tools
    ∧ (t ∈ tools → t.«type» = ToolTypeFunction →
        (∃ g, g ∈ gemini.translateTools tools ∧ gemini.funcDeclOf t ∈ g.functionDeclarations)
        ∧ (∃ rt, rt ∈ oai_resp.translateTools tools ∧ rt.«type» = "function" ∧ rt.name = t.name)) := by
  intro tools t
  have hbadG : ∀ x : Tool,
      (!(x.«type» == ToolTypeFileSearch || x.«type» == ToolTypeComputerUse ||
        x.«type» == ToolTypeTextEditor)) = false →
      x.«type» = ToolTypeFileSearch ∨ x.«type» = ToolTypeComputerUse ∨
        x.«type» = ToolTypeTextEditor := by
    intro x hx
    have hx2 : ¬x.«type» = ToolTypeFileSearch → ¬x.«type» = ToolTypeComputerUse →
        x.«type» = ToolTypeTextEditor := by simpa using hx
    by_cases h1 : x.«type» = ToolTypeFileSearch
    · exact Or.inl h1
    · by_cases h2 : x.«type» = ToolTypeComputerUse
      · exact Or.inr (Or.inl h2)
      · exact Or.inr (Or.inr (hx2 h1 h2))
  refine ⟨?_, ?_, ?_⟩
  · simp only [gemini.translateTools]
    rw [translateToolsLoop_eq, translateToolsLoop_eq]
    have hfd : gemini.funcDecls (tools.filter (fun x =>
        !(x.«type» == ToolTypeFileSearch || x.«type» == ToolTypeComputerUse ||
          x.«type» == ToolTypeTextEditor))) = gemini.funcDecls tools := by
      simp only [gemini.funcDecls]
      refine filterMap_filter_of_none _ _ _ ?_
      intro x hx
      rcases hbadG x hx with h | h | h <;>
        simp [h, ToolTypeFileSearch, ToolTypeComputerUse, ToolTypeTextEditor, ToolTypeFunction]
    have hnf : (tools.filter (fun x =>
        !(x.«type» == ToolTypeFileSearch || x.«type» == ToolTypeComputerUse ||
          x.«type» == ToolTypeTextEditor))).filterMap gemini.nonFuncEntry =
        tools.filterMap gemini.nonFuncEntry := by
      refine filterMap_filter_of_none _ _ _ ?_
      intro x hx
      rcases hbadG x hx with h | h | h <;>
        simp [gemini.nonFuncEntry, h, ToolTypeFileSearch, ToolTypeComputerUse,
          ToolTypeTextEditor, ToolTypeWebSearch, ToolTypeCodeExecution]
    rw [hfd, hnf]
  · simp only [oai_resp.translateTools]
    refine filterMap_filter_of_none _ _ _ ?_
    intro x hx
    have h : x.«type» = ToolTypeTextEditor := by simpa using hx
    simp [oai_resp.toolEntry, h, ToolTypeTextEditor, ToolTypeFunction, ToolTypeWebSearch,
      ToolTypeCodeExecution, ToolTypeFileSearch, ToolTypeComputerUse]
  · intro ht htype
    constructor
    · have hmem : gemini.funcDeclOf t ∈ gemini.funcDecls tools := by
        simp only [gemini.funcDecls]
        exact List.mem_filterMap.mpr ⟨t, ht, by simp [htype]⟩
      have hfdne : ¬ (gemini.funcDecls tools).isEmpty = true := by
        intro hemp
        cases hfd2 : gemini.funcDecls tools with
        | nil =>
            rw [hfd2] at hmem
            exact absurd hmem (List.not_mem_nil _)
        | cons a l =>
            rw [hfd2] at hemp
            simp at hemp
      refine ⟨{ functionDeclarations := gemini.funcDecls tools }, ?_, hmem⟩
      simp only [gemini.translateTools]
      rw [translateToolsLoop_eq]
      simp [hfdne]
    · cases hs : t.inputSchema with
      | none =>
          refine ⟨{ «type» := "function", name := t.name, description := t.description },
            ?_, rfl, rfl⟩
          exact List.mem_filterMap.mpr
            ⟨t, ht, by simp [oai_resp.toolEntry, htype, ToolTypeFunction, hs]⟩
      | some sch =>
          refine ⟨{ «type» := "function", name := t.name, description := t.description,
                    parameters := some (jsonMarshal (some sch)) }, ?_, rfl, rfl⟩
          exact List.mem_filterMap.mpr
            ⟨t, ht, by simp [oai_resp.toolEntry, htype, ToolTypeFunction, hs]⟩

/-- Claim C4, witness: a mixed tool list with file-search, function and
text-editor tools. -/
theorem C4_witness :
    gemini.translateTools
        ([{ «type» := ToolTypeFileSearch }, { «type» := ToolTypeFunction, name := "f" },
          { «type» := ToolTypeTextEditor }].filter (fun x =>
          !(x.«type» == ToolTypeFileSearch || x.«type» == ToolTypeComputerUse ||
            x.«type» == ToolTypeTextEditor))) =
      gemini.translateTools
        [{ «type» := ToolTypeFileSearch }, { «type» := ToolTypeFunction, name := "f" },
         { «type» := ToolTypeTextEditor }]
    ∧ oai_resp.translateTools
        ([{ «type» := ToolTypeFileSearch }, { «type» := ToolTypeFunction, name := "f" },
          { «type» := ToolTypeTextEditor }].filter (fun x =>
          !(x.«type» == ToolTypeTextEditor))) =
      oai_resp.translateTools
        [{ «type» := ToolTypeFileSearch }, { «type» := ToolTypeFunction, name := "f" },
         { «type» := ToolTypeTextEditor }]
    ∧ ({ «type» := ToolTypeFunction, name := "f" } : Tool) ∈
        [{ «type» := ToolTypeFileSearch }, { «type» := ToolTypeFunction, name := "f" },
         { «type» := ToolTypeTextEditor }]
    ∧ ({ «type» := ToolTypeFunction, name := "f" } : Tool).«type» = ToolTypeFunction
    ∧ (∃ g, g ∈ gemini.translateTools
          [{ «type» := ToolTypeFileSearch }, { «type» := ToolTypeFunction, name := "f" },
           { «type» := ToolTypeTextEditor }] ∧
        gemini.funcDeclOf { «type» := ToolTypeFunction, name := "f" } ∈ g.functionDeclarations)
    ∧ (∃ rt, rt ∈ oai_resp.translateTools
          [{ «type» := ToolTypeFileSearch }, { «type» := ToolTypeFunction, name := "f" },
           { «type» := ToolTypeTextEditor }] ∧
        rt.«type» = "function" ∧ rt.name = ({ «type» := ToolTypeFunction, name := "f" } : Tool).name) :=
  ⟨(C4_unsupported_tools_omitted
      [{ «type» := ToolTypeFileSearch }, { «type» := ToolTypeFunction, name := "f" },
       { «type» := ToolTypeTextEditor }] { «type» := ToolTypeFunction, name := "f" }).1,
   (C4_unsupported_tools_omitted
      [{ «type» := ToolTypeFileSearch }, { «type» := ToolTypeFunction, name := "f" },
       { «type» := ToolTypeTextEditor }] { «type» := ToolTypeFunction, name := "f" }).2.1,
   by simp,
   rfl,
   ((C4_unsupported_tools_omitted
      [{ «type» := ToolTypeFileSearch }, { «type» := ToolTypeFunction, name := "f" },
       { «type» := ToolTypeTextEditor }] { «type» := ToolTypeFunction, name := "f" }).2.2
      (by simp) rfl).1,
   ((C4_unsupported_tools_omitted
      [{ «type» := ToolTypeFileSearch }, { «type» := ToolTypeFunction, name := "f" },
       { «type» := ToolTypeTextEditor }] { «type» := ToolTypeFunction, name := "f" }).2.2
      (by simp) rfl).2⟩

/-- Claim C5: with at least one function tool present, the Gemini adapter
batches all function tools into exactly one tool entry whose declaration
list has one declaration per function tool in input order (preserving name,
description and schema), and each web-search or code-execution tool maps to
exactly one separate entry. -/
theorem C5_function_tools_batched :
  ∀ tools : List Tool,
    tools.any (fun t => t.«type» == ToolTypeFunction) = true →
    (gemini.translateTools tools).filter (fun e => !e.functionDeclarations.isEmpty) =
        [{ functionDeclarations := gemini.funcDecls tools }]
    ∧ gemini.funcDecls tools =
        (tools.filter (fun t => t.«type» == ToolTypeFunction)).map gemini.funcDeclOf
    ∧ (gemini.translateTools tools).countP (fun e => e.googleSearch.isSome) =
        tools.countP (fun t => t.«type» == ToolTypeWebSearch)
    ∧ (gemini.translateTools tools).countP (fun e => e.codeExecution.isSome) =
        tools.countP (fun t => t.«type» == ToolTypeCodeExecution) := by
  intro tools hany
  have hfdne : ¬ (gemini.funcDecls tools).isEmpty = true := by
    rcases List.any_eq_true.mp hany with ⟨x, hx, hxt⟩
    have hxt2 : x.«type» = ToolTypeFunction := by simpa using hxt
    have hmem : gemini.funcDeclOf x ∈ gemini.funcDecls tools := by
      simp only [gemini.funcDecls]
      exact List.mem_filterMap.mpr ⟨x, hx, by simp [hxt2]⟩
    intro hemp
    cases hfd2 : gemini.funcDecls tools with
    | nil =>
        rw [hfd2] at hmem
        exact absurd hmem (List.not_mem_nil _)
    | cons a l =>
        rw [hfd2] at hemp
        simp at hemp
  refine ⟨?_, funcDecls_eq_filter_map tools, ?_, ?_⟩
  · simp only [gemini.translateTools]
    rw [translateToolsLoop_eq]
    simp only [List.nil_append]
    rw [List.filter_append, filter_decls_filterMap_nonFuncEntry]
    simp [hfdne, Bool.not_eq_true _ ▸ rfl]
  · simp only [gemini.translateTools]
    rw [translateToolsLoop_eq]
    simp only [List.nil_append]
    rw [List.countP_append, countP_googleSearch_filterMap]
    have hz : (if ((gemini.funcDecls tools).isEmpty = true) then ([] : List geminiTool)
        else [{ functionDeclarations := gemini.funcDecls tools }]).countP
          (fun e => e.googleSearch.isSome) = 0 := by
      split
      · rfl
      · simp [List.countP_cons]
    rw [hz]
    simp
  · simp only [gemini.translateTools]
    rw [translateToolsLoop_eq]
    simp only [List.nil_append]
    rw [List.countP_append, countP_codeExecution_filterMap]
    have hz : (if ((gemini.funcDecls tools).isEmpty = true) then ([] : List geminiTool)
        else [{ functionDeclarations := gemini.funcDecls tools }]).countP
          (fun e => e.codeExecution.isSome) = 0 := by
      split
      · rfl
      · simp [List.countP_cons]
    rw [hz]
    simp

/-- Claim C5, witness: two function tools batched into one entry among one
web-search and one code-execution entry. -/
theorem C5_witness :
    ([{ «type» := ToolTypeWebSearch }, { «type» := ToolTypeFunction, name := "f1" },
      { «type» := ToolTypeFileSearch }, { «type» := ToolTypeFunction, name := "f2" },
      { «type» := ToolTypeCodeExecution }] : List Tool).any
        (fun t => t.«type» == ToolTypeFunction) = true
    ∧ (gemini.translateTools
        [{ «type» := ToolTypeWebSearch }, { «type» := ToolTypeFunction, name := "f1" },
         { «type» := ToolTypeFileSearch }, { «type» := ToolTypeFunction, name := "f2" },
         { «type» := ToolTypeCodeExecution }]).filter
          (fun e => !e.functionDeclarations.isEmpty) =
      [{ functionDeclarations := gemini.funcDecls
          [{ «type» := ToolTypeWebSearch }, { «type» := ToolTypeFunction, name := "f1" },
           { «type» := ToolTypeFileSearch }, { «type» := ToolTypeFunction, name := "f2" },
           { «type» := ToolTypeCodeExecution }] }]
    ∧ gemini.funcDecls
        [{ «type» := ToolTypeWebSearch }, { «type» := ToolTypeFunction, name := "f1" },
         { «type» := ToolTypeFileSearch }, { «type» := ToolTypeFunction, name := "f2" },
         { «type» := ToolTypeCodeExecution }] =
      ([{ «type» := ToolTypeWebSearch }, { «type» := ToolTypeFunction, name := "f1" },
        { «type» := ToolTypeFileSearch }, { «type» := ToolTypeFunction, name := "f2" },
        { «type» := ToolTypeCodeExecution }].filter
          (fun t => t.«type» == ToolTypeFunction)).map gemini.funcDeclOf
    ∧ (gemini.translateTools
        [{ «type» := ToolTypeWebSearch }, { «type» := ToolTypeFunction, name := "f1" },
         { «type» := ToolTypeFileSearch }, { «type» := ToolTypeFunction, name := "f2" },
         { «type» := ToolTypeCodeExecution }]).countP (fun e => e.googleSearch.isSome) =
      ([{ «type» := ToolTypeWebSearch }, { «type» := ToolTypeFunction, name := "f1" },
        { «type» := ToolTypeFileSearch }, { «type» := ToolTypeFunction, name := "f2" },
        { «type» := ToolTypeCodeExecution }] : List Tool).countP
          (fun t => t.«type» == ToolTypeWebSearch)
    ∧ (gemini.translateTools
        [{ «type» := ToolTypeWebSearch }, { «type» := ToolTypeFunction, name := "f1" },
         { «type» := ToolTypeFileSearch }, { «type» := ToolTypeFunction, name := "f2" },
         { «type» := ToolTypeCodeExecution }]).countP (fun e => e.codeExecution.isSome) =
      ([{ «type» := ToolTypeWebSearch }, { «type» := ToolTypeFunction, name := "f1" },
        { «type» := ToolTypeFileSearch }, { «type» := ToolTypeFunction, name := "f2" },
        { «type» := ToolTypeCodeExecution }] : List Tool).countP
          (fun t => t.«type» == ToolTypeCodeExecution) :=
  ⟨rfl,
   (C5_function_tools_batched
     [{ «type» := ToolTypeWebSearch }, { «type» := ToolTypeFunction, name := "f1" },
      { «type» := ToolTypeFileSearch }, { «type» := ToolTypeFunction, name := "f2" },
      { «type» := ToolTypeCodeExecution }] rfl).1,
   (C5_function_tools_batched
     [{ «type» := ToolTypeWebSearch }, { «type» := ToolTypeFunction, name := "f1" },
      { «type» := ToolTypeFileSearch }, { «type» := ToolTypeFunction, name := "f2" },
      { «type» := ToolTypeCodeExecution }] rfl).2.1,
   (C5_function_tools_batched
     [{ «type» := ToolTypeWebSearch }, { «type» := ToolTypeFunction, name := "f1" },
      { «type» := ToolTypeFileSearch }, { «type» := ToolTypeFunction, name := "f2" },
      { «type» := ToolTypeCodeExecution }] rfl).2.2.1,
   (C5_function_tools_batched
     [{ «type» := ToolTypeWebSearch }, { «type» := ToolTypeFunction, name := "f1" },
      { «type» := ToolTypeFileSearch }, { «type» := ToolTypeFunction, name := "f2" },
      { «type» := ToolTypeCodeExecution }] rfl).2.2.2⟩

/-- `translateMessagesAux` translates message lists pointwise (for a fixed
conversation used for name resolution). -/
theorem translateMessagesAux_append (all l1 l2 : List Message) :
    gemini.translateMessagesAux all (l1 ++ l2) =
      gemini.translateMessagesAux all l1 ++ gemini.translateMessagesAux all l2 := by
  induction l1 with
  | nil => rfl
  | cons m rest ih =>
      simp only [List.cons_append, gemini.translateMessagesAux, List.append_eq, ih,
        List.append_assoc]

/-- Claim C9: a message containing at least one tool-result block is
translated into one separate role=`"function"` content per tool-result
block, in block order, and nothing else: its non-tool-result blocks
produce no content. -/
theorem C9_tool_result_messages :
  ∀ (pre post : List Message) (msg : Message),
    msg.content.any (fun block =>
      match block with
      | ContentBlock.toolResult _ _ => true
      | _ => false) = true →
    gemini.translateMessages (pre ++ msg :: post) =
      gemini.translateMessagesAux (pre ++ msg :: post) pre
      ++ msg.content.filterMap (fun block =>
          match block with
          | ContentBlock.toolResult tid c =>
              some ({ role := "function",
                      parts := [{ functionResponse := some { name := gemini.getToolNameFromID tid (pre ++ msg :: post),
                                                             response := gemini.toolResultToMap c } }] } : geminiContent)
          | _ => Option.none)
      ++ gemini.translateMessagesAux (pre ++ msg :: post) post := by
  intro pre post msg h
  simp only [gemini.translateMessages]
  rw [translateMessagesAux_append (pre ++ msg :: post) pre (msg :: post)]
  simp [gemini.translateMessagesAux, Message.ContentBlocks, h, List.append_assoc]

/-- Claim C9, witness: a message mixing a tool result with a text block;
only the tool result survives translation. -/
theorem C9_witness :
    ({ role := "user",
       content := [ContentBlock.toolResult "a" [ContentBlock.text "ok"],
                   ContentBlock.text "dropped"] } : Message).content.any (fun block =>
      match block with
      | ContentBlock.toolResult _ _ => true
      | _ => false) = true
    ∧ gemini.translateMessages
        [{ role := "user",
           content := [ContentBlock.toolResult "a" [ContentBlock.text "ok"],
                       ContentBlock.text "dropped"] }] =
      gemini.translateMessagesAux
          [{ role := "user",
             content := [ContentBlock.toolResult "a" [ContentBlock.text "ok"],
                         ContentBlock.text "dropped"] }] []
      ++ ({ role := "user",
            content := [ContentBlock.toolResult "a" [ContentBlock.text "ok"],
                        ContentBlock.text "dropped"] } : Message).content.filterMap (fun block =>
          match block with
          | ContentBlock.toolResult tid c =>
              some ({ role := "function",
                      parts := [{ functionResponse := some { name := gemini.getToolNameFromID tid
                                                               [{ role := "user",
                                                                  content := [ContentBlock.toolResult "a" [ContentBlock.text "ok"],
                                                                              ContentBlock.text "dropped"] }],
                                                             response := gemini.toolResultToMap c } }] } : geminiContent)
          | _ => Option.none)
      ++ gemini.translateMessagesAux
          [{ role := "user",
             content := [ContentBlock.toolResult "a" [ContentBlock.text "ok"],
                         ContentBlock.text "dropped"] }] [] :=
  ⟨rfl,
   C9_tool_result_messages [] []
     { role := "user",
       content := [ContentBlock.toolResult "a" [ContentBlock.text "ok"],
                   ContentBlock.text "dropped"] } rfl⟩

/-- `buildGenerationConfig` reads the extension bag only at the
`"gemini"` key. -/
theorem buildGenerationConfig_ext (req : MessageRequest)
    (extB : List (String × JSONValue))
    (h : lookupKey "gemini" extB = lookupKey "gemini" req.extensions) :
    gemini.buildGenerationConfig { req with extensions := extB } =
      gemini.buildGenerationConfig req := by
  dsimp only [gemini.buildGenerationConfig]
  rw [h]

/-- `buildGenerationConfig` is the composition of its four update steps
applied to the base sampling config (definitionally). -/
theorem buildGenerationConfig_steps (req : MessageRequest) :
    gemini.buildGenerationConfig req =
      gemini.applyThinking req (gemini.applyOutputFormat req (gemini.applyStopSequences req
        (gemini.applyMaxTokens req
          { temperature := req.temperature, topP := req.topP, topK := req.topK }))) := rfl

/-- The max-tokens step does not touch the thinking configuration. -/
theorem applyMaxTokens_thinkingConfig (req : MessageRequest) (c : geminiGenConfig) :
    (gemini.applyMaxTokens req c).thinkingConfig = c.thinkingConfig := by
  dsimp only [gemini.applyMaxTokens]
  split <;> rfl

/-- The stop-sequences step does not touch the thinking configuration. -/
theorem applyStopSequences_thinkingConfig (req : MessageRequest) (c : geminiGenConfig) :
    (gemini.applyStopSequences req c).thinkingConfig = c.thinkingConfig := by
  dsimp only [gemini.applyStopSequences]
  split <;> rfl

/-- The structured-output step does not touch the thinking configuration. -/
theorem applyOutputFormat_thinkingConfig (req : MessageRequest) (c : geminiGenConfig) :
    (gemini.applyOutputFormat req c).thinkingConfig = c.thinkingConfig := by
  dsimp only [gemini.applyOutputFormat]
  repeat' (first | rfl | split)

/-- The thinking step overwrites an absent thinking configuration with
exactly the configuration determined by the extracted parameters. -/
theorem applyThinking_thinkingConfig (req : MessageRequest) (c : geminiGenConfig)
    (hc : c.thinkingConfig = Option.none) :
    (gemini.applyThinking req c).thinkingConfig =
      gemini.thinkingConfigOf (gemini.thinkingParams req) := by
  dsimp only [gemini.applyThinking, gemini.thinkingParams, gemini.thinkingConfigOf]
  cases hg : lookupKey "gemini" req.extensions with
  | none => exact hc
  | some v =>
      cases v with
      | obj ext =>
          dsimp only
          cases ht : lookupKey "thinking" ext with
          | none => exact hc
          | some tv =>
              cases tv with
              | obj th =>
                  dsimp only
                  generalize lookupKey "level" th = L
                  generalize lookupKey "budget" th = B
                  generalize lookupKey "include_thoughts" th = I
                  rcases L with _ | lv <;> rcases B with _ | bv <;> rcases I with _ | iv <;>
                    (try cases lv) <;> (try cases bv) <;> (try cases iv) <;> rfl
              | null => exact hc
              | bool b => exact hc
              | num n1 => exact hc
              | str s1 => exact hc
              | arr a => exact hc
      | null => exact hc
      | bool b => exact hc
      | num n1 => exact hc
      | str s1 => exact hc
      | arr a => exact hc

/-- The generated thinking configuration is a function of the extracted
thinking parameters alone. -/
theorem buildGenerationConfig_thinking (req : MessageRequest) :
    (gemini.buildGenerationConfig req).thinkingConfig =
      gemini.thinkingConfigOf (gemini.thinkingParams req) := by
  rw [buildGenerationConfig_steps]
  refine applyThinking_thinkingConfig req _ ?_
  rw [applyOutputFormat_thinkingConfig, applyStopSequences_thinkingConfig,
    applyMaxTokens_thinkingConfig]

/-- Claim C8: unknown extension keys are ignored — two requests identical
except in extension entries under keys other than `"gemini"` yield the same
generation config and the same Gemini request — and the generated thinking
configuration depends only on the `"gemini"` extension's `"thinking"`
entry, through its level, budget and include_thoughts fields. -/
theorem C8_extension_isolation :
  ∀ (req : MessageRequest) (extB : List (String × JSONValue)) (r1 r2 : MessageRequest),
    (lookupKey "gemini" extB = lookupKey "gemini" req.extensions →
      gemini.buildGenerationConfig { req with extensions := extB } =
        gemini.buildGenerationConfig req
      ∧ gemini.buildRequest { req with extensions := extB } = gemini.buildRequest req)
    ∧ (gemini.thinkingParams r1 = gemini.thinkingParams r2 →
      (gemini.buildGenerationConfig r1).thinkingConfig =
        (gemini.buildGenerationConfig r2).thinkingConfig) := by
  intro req extB r1 r2
  constructor
  · intro h
    have hcfg := buildGenerationConfig_ext req extB h
    refine ⟨hcfg, ?_⟩
    dsimp only [gemini.buildRequest]
    rw [hcfg]
  · intro h
    rw [buildGenerationConfig_thinking, buildGenerationConfig_thinking, h]

/-- Claim C8, witness: changing and adding non-`"gemini"` extension entries
does not change the output, and thinking configs agree whenever the
extracted thinking parameters do. -/
theorem C8_witness :
    lookupKey "gemini"
        [("gemini", JSONValue.obj [("thinking", JSONValue.obj [("level", JSONValue.str "high")])]),
         ("zzz", JSONValue.bool true)] =
      lookupKey "gemini"
        ({ model := "gemini/g", maxTokens := 5,
           extensions := [("openai", JSONValue.num 1),
                          ("gemini", JSONValue.obj [("thinking", JSONValue.obj [("level", JSONValue.str "high")])])] } : MessageRequest).extensions
    ∧ gemini.buildGenerationConfig
        { ({ model := "gemini/g", maxTokens := 5,
             extensions := [("openai", JSONValue.num 1),
                            ("gemini", JSONValue.obj [("thinking", JSONValue.obj [("level", JSONValue.str "high")])])] } : MessageRequest) with
          extensions :=
            [("gemini", JSONValue.obj [("thinking", JSONValue.obj [("level", JSONValue.str "high")])]),
             ("zzz", JSONValue.bool true)] } =
      gemini.buildGenerationConfig
        { model := "gemini/g", maxTokens := 5,
          extensions := [("openai", JSONValue.num 1),
                         ("gemini", JSONValue.obj [("thinking", JSONValue.obj [("level", JSONValue.str "high")])])] }
    ∧ gemini.buildRequest
        { ({ model := "gemini/g", maxTokens := 5,
             extensions := [("openai", JSONValue.num 1),
                            ("gemini", JSONValue.obj [("thinking", JSONValue.obj [("level", JSONValue.str "high")])])] } : MessageRequest) with
          extensions :=
            [("gemini", JSONValue.obj [("thinking", JSONValue.obj [("level", JSONValue.str "high")])]),
             ("zzz", JSONValue.bool true)] } =
      gemini.buildRequest
        { model := "gemini/g", maxTokens := 5,
          extensions := [("openai", JSONValue.num 1),
                         ("gemini", JSONValue.obj [("thinking", JSONValue.obj [("level", JSONValue.str "high")])])] }
    ∧ gemini.thinkingParams
        ({ extensions := [("gemini", JSONValue.obj [("thinking",
            JSONValue.obj [("level", JSONValue.str "l"), ("budget", JSONValue.num 3),
                           ("extra", JSONValue.num 9)])])] } : MessageRequest) =
      gemini.thinkingParams
        ({ extensions := [("gemini", JSONValue.obj [("thinking",
            JSONValue.obj [("budget", JSONValue.num 3), ("level", JSONValue.str "l"),
                           ("other", JSONValue.str "x")])])] } : MessageRequest)
    ∧ (gemini.buildGenerationConfig
        ({ extensions := [("gemini", JSONValue.obj [("thinking",
            JSONValue.obj [("level", JSONValue.str "l"), ("budget", JSONValue.num 3),
                           ("extra", JSONValue.num 9)])])] } : MessageRequest)).thinkingConfig =
      (gemini.buildGenerationConfig
        ({ extensions := [("gemini", JSONValue.obj [("thinking",
            JSONValue.obj [("budget", JSONValue.num 3), ("level", JSONValue.str "l"),
                           ("other", JSONValue.str "x")])])] } : MessageRequest)).thinkingConfig :=
  ⟨rfl,
   ((C8_extension_isolation
      { model := "gemini/g", maxTokens := 5,
        extensions := [("openai", JSONValue.num 1),
                       ("gemini", JSONValue.obj [("thinking", JSONValue.obj [("level", JSONValue.str "high")])])] }
      [("gemini", JSONValue.obj [("thinking", JSONValue.obj [("level", JSONValue.str "high")])]),
       ("zzz", JSONValue.bool true)]
      {} {}).1 rfl).1,
   ((C8_extension_isolation
      { model := "gemini/g", maxTokens := 5,
        extensions := [("openai", JSONValue.num 1),
                       ("gemini", JSONValue.obj [("thinking", JSONValue.obj [("level", JSONValue.str "high")])])] }
      [("gemini", JSONValue.obj [("thinking", JSONValue.obj [("level", JSONValue.str "high")])]),
       ("zzz", JSONValue.bool true)]
      {} {}).1 rfl).2,
   rfl,
   (C8_extension_isolation {} []
      { extensions := [("gemini", JSONValue.obj [("thinking",
          JSONValue.obj [("level", JSONValue.str "l"), ("budget", JSONValue.num 3),
                         ("extra", JSONValue.num 9)])])] }
      { extensions := [("gemini", JSONValue.obj [("thinking",
          JSONValue.obj [("budget", JSONValue.num 3), ("level", JSONValue.str "l"),
                         ("other", JSONValue.str "x")])])] }).2 rfl⟩

end VAI
